import Mathlib

/-!
Shallow embedding of the artifact-resolution core of the repository
(fpe_lite/admin.py, fpe_lite/reftime.py, fpe_lite/files.py).

Modelling conventions:
* A Python `datetime` is modelled as a natural number of minutes since
  1970-01-01T00:00Z (proleptic Gregorian calendar).  All datetimes the
  code manipulates are far later than 1970, and the code only ever adds
  nonnegative timedeltas, so natural numbers suffice.
* `strftime("nwm.%Y%m%d")` date directories are modelled by the absolute
  day index of the datetime (a bijection with the date string), and
  `strftime("t%Hz")` reference-hour strings by the hour number.
* Timestep strings such as "tm02" / "f018" are modelled by the inductive
  `TsStr`, keeping the signed integer the string renders.
* The wall clock (`datetime.utcnow()` in the source) is passed in as an
  explicit parameter.
* Python exceptions become `Except Err` (one constructor per raise site)
  or `Option` results.
* Timestep intervals are modelled as natural hour counts: the claims under
  study concern the 1-hour (Conus) grids; the sub-hour Hawaii branches are
  translated literally and are dead for natural-number intervals.
-/

/-! ## Calendar arithmetic (model of Python datetime) -/

def isLeap (y : ℕ) : Bool := y % 4 == 0 && (y % 100 != 0 || y % 400 == 0)

def daysInMonth (y m : ℕ) : ℕ :=
  if m = 2 then (if isLeap y then 29 else 28)
  else if m = 4 ∨ m = 6 ∨ m = 9 ∨ m = 11 then 30
  else 31

/-- Days since 1970-01-01 of a civil date (valid for years from 1970 on). -/
def daysFromCivil (y m d : ℕ) : ℕ :=
  let y2 := if m ≤ 2 then y - 1 else y
  let era := y2 / 400
  let yoe := y2 % 400
  let mp := if m > 2 then m - 3 else m + 9
  let doy := (153 * mp + 2) / 5 + (d - 1)
  let doe := yoe * 365 + yoe / 4 - yoe / 100 + doy
  era * 146097 + doe - 719468

/-- Civil date (year, month, day) of an absolute day index since 1970-01-01. -/
def civilFromDays (z : ℕ) : ℕ × ℕ × ℕ :=
  let z2 := z + 719468
  let era := z2 / 146097
  let doe := z2 % 146097
  let yoe := (doe - doe / 1460 + doe / 36524 - doe / 146096) / 365
  let y := yoe + era * 400
  let doy := doe - (365 * yoe + yoe / 4 - yoe / 100)
  let mp := (5 * doy + 2) / 153
  let d := doy - (153 * mp + 2) / 5 + 1
  let m := if mp < 10 then mp + 3 else mp - 9
  (if m ≤ 2 then y + 1 else y, m, d)

/-- Minutes since 1970-01-01T00:00Z of a civil datetime at the top of an hour. -/
def dtOf (y m d h : ℕ) : ℕ := (daysFromCivil y m d * 24 + h) * 60

/-- The hour field of a datetime. -/
def dtHour (t : ℕ) : ℕ := t / 60 % 24

/-- The minute field of a datetime. -/
def dtMinute (t : ℕ) : ℕ := t % 60

/-- The absolute day index of the date part of a datetime. -/
def dtDay (t : ℕ) : ℕ := t / 1440

/-- The (year, month, day) fields of a datetime. -/
def dtYMD (t : ℕ) : ℕ × ℕ × ℕ := civilFromDays (dtDay t)

/-- Python replace(hour = b): same date and minute, hour set to b. -/
def replaceHour (t b : ℕ) : ℕ := 1440 * (t / 1440) + 60 * b + t % 60

/-- Python replace(second = 0, microsecond = 0, minute = 0): floor to the hour. -/
def floorHour (t : ℕ) : ℕ := t - t % 60

/-- Python datetime(y, m, d, h, 0, 0) constructor; none models the
ValueError raised on an out-of-range component (e.g. day 32). -/
def mkDatetime (y m d h : ℕ) : Option ℕ :=
  if 1 ≤ m ∧ m ≤ 12 ∧ 1 ≤ d ∧ d ≤ daysInMonth y m ∧ h < 24 then some (dtOf y m d h)
  else none

/-! ## admin.py : version resolver and configuration catalog -/

/-- admin.nwm_version: version in effect at a datetime.  The Python float
versions 2.0 / 2.1 / 2.2 are modelled in tenths (20 / 21 / 22), an
order-isomorphic encoding of the three values the source compares. -/
def nwm_version (ref_time : ℕ) : ℕ :=
  let v21_date := dtOf 2021 4 20 14
  let v22_date := dtOf 2022 7 9 0
  if v22_date ≤ ref_time then 22
  else if v21_date ≤ ref_time then 21
  else 20

/-- One row of the configuration-specs table built by admin.config_specs
(the columns the resolution core reads).  The fractional-hour columns of the
source are modelled exactly in minutes: timestep_int (hours, 0.25 for the
sub-hour Hawaii grid) as timestep_minutes and latency (hours) as
latency_minutes. -/
structure ConfigSpecs where
  dir_suffix : String
  var_str_suffix : String
  duration_hrs : ℕ
  timestep_minutes : ℕ
  runs_per_day : ℕ
  base_run_hour : ℕ
  latency_minutes : ℕ
  is_forecast : Bool
deriving Repr, DecidableEq

/-- Error taxonomy: one constructor per raise site of the embedded code. -/
inductive Err
  | startAfterEnd
  | domainConfigIncompatible
  | badVersion
  | versionSpan
  | configNotExist (config domain : String)
  | domainNotExist (domain : String)
  | keyError (config : String)
  | nameError (domain : String)
deriving Repr, DecidableEq

/-- admin.config_specs: the per-(configuration, domain, version, member)
specification table.  Errors model the ValueError / KeyError / NameError
raise sites of the Python function. -/
def config_specs (config domain : String) (version : ℕ) (member : ℕ) : Except Err ConfigSpecs :=
  let config := if config = "latest_ana" then "analysis_assim" else config
  if domain = "conus" then
    if config = "short_range" then .ok ⟨ "", "", 18, 60, 24, 0, 90, true⟩
    else if config = "medium_range" then
      let dur : ℕ := if member > 1 then 204 else 240
      let sfx : String := if member > 1 then "_mem" ++ toString member else "_mem1"
      let vsx : String := if member > 1 then "_" ++ toString member else "_1"
      let ts : ℕ := if version < 21 then 180 else 60
      .ok ⟨sfx, vsx, dur, ts, 4, 0, 360, true⟩
    else if config = "analysis_assim" then .ok ⟨ "", "", 3, 60, 24, 0, 30, false⟩
    else if config = "analysis_assim_extend" then .ok ⟨ "", "", 28, 60, 1, 16, 180, false⟩
    else .error (.keyError config)
  else if domain = "hawaii" then
    if config = "medium_range" ∨ config = "long_range" ∨ config = "analysis_assim_extend" then
      .error (.configNotExist config domain)
    else if config = "short_range" then
      if version = 20 then .ok ⟨ "_hawaii", "", 60, 60, 4, 0, 90, true⟩
      else .ok ⟨ "_hawaii", "", 48, 15, 2, 0, 90, true⟩
    else if config = "analysis_assim" then
      if version = 20 then .ok ⟨ "_hawaii", "", 3, 60, 24, 0, 30, false⟩
      else .ok ⟨ "_hawaii", "", 3, 15, 24, 0, 30, false⟩
    else .error (.keyError config)
  else if domain = "puertorico" then
    if config = "medium_range" ∨ config = "long_range" ∨ config = "analysis_assim_extend" then
      .error (.configNotExist config domain)
    else if version < 21 then .error (.domainNotExist domain)
    else if config = "short_range" then .ok ⟨ "_puertorico", "", 48, 60, 2, 6, 90, true⟩
    else if config = "analysis_assim" then .ok ⟨ "_puertorico", "", 3, 60, 24, 0, 30, false⟩
    else .error (.keyError config)
  else .error (.nameError domain)

/-! ## reftime.py : reference-time scheduling -/

/-- Model of pd.date_range(start, end, freq): all instants from start to
stop inclusive at stepMin-minute spacing (empty when stop is before start). -/
def dateRange (start stop stepMin : ℕ) : List ℕ :=
  if stop < start then []
  else (List.range ((stop - start) / stepMin + 1)).map (fun k => start + k * stepMin)

/-- The starting-reference-time snap performed inside reftime.build_reftime_list
(lines 330-343 of reftime.py): shift the start forward onto the run cadence. -/
def snap_ref_start (spec : ConfigSpecs) (ref_start : ℕ) : ℕ :=
  let interval := 24 / spec.runs_per_day
  if spec.base_run_hour = 0 ∧ spec.runs_per_day < 24 then
    let offset := dtHour ref_start % interval
    if offset > 0 then ref_start + 60 * (interval - offset) else ref_start
  else if spec.base_run_hour > 0 ∧ spec.runs_per_day = 1 then
    if dtHour ref_start ≤ spec.base_run_hour then replaceHour ref_start spec.base_run_hour
    else replaceHour ref_start spec.base_run_hour + 1440
  else ref_start

/-- reftime.build_reftime_list: list of reference times within a date range
for a configuration and domain.  The specs argument of the source is
flattened to its one used field, the domain. -/
def build_reftime_list (domain : String) (ref_start ref_end : ℕ) (config : String)
    (order : String) : Except Err (List ℕ) :=
  let version := nwm_version ref_start
  if ref_end < ref_start then .error .startAfterEnd
  else if domain = "hawaii" ∧ config = "medium_range" then .error .domainConfigIncompatible
  else if version < 20 ∨ version > 22 then .error .badVersion
  else
    match config_specs config domain version 1 with
    | .error e => .error e
    | .ok spec =>
      let interval := 24 / spec.runs_per_day
      let start2 := snap_ref_start spec ref_start
      if ref_end < start2 then .ok []
      else
        let l := dateRange start2 ref_end (60 * interval)
        .ok (if order = "descending" then l.reverse else l)

/-- Result of reftime.reftimes_in_range: either the list of reference times,
or the pair of two empty lists the Python function returns when no
reference times exist. -/
inductive ReftimeResult
  | lists : List ℕ → ReftimeResult
  | emptyPair : ReftimeResult
deriving Repr, DecidableEq

/-- reftime.reftimes_in_range: the scheduler entry point.  The specs argument
is flattened to the fields it reads (domain, ref_start, ref_end); eval_hr
keeps its source default of -999 at the call sites under study. -/
def reftimes_in_range (domain config : String) (ref_start0 ref_end0 : ℕ)
    (eval_hr : ℤ) : Except Err ReftimeResult :=
  let ref_start := if eval_hr ≥ 0 then ref_start0 - 60 * dtHour ref_start0 + (60 * eval_hr).toNat
    else ref_start0
  let ref_end := if eval_hr ≥ 0 then ref_end0 - 60 * dtHour ref_end0 + (60 * eval_hr).toNat
    else ref_end0
  let version := nwm_version ref_start
  let version_end := nwm_version ref_end
  if version ≠ version_end then .error .versionSpan
  else
    match config_specs config domain version 1 with
    | .error e => .error e
    | .ok _spec =>
      match build_reftime_list domain ref_start ref_end config "ascending" with
      | .error e => .error e
      | .ok ref_time_list =>
        if ref_time_list = [] then .ok .emptyPair
        else
          let ref_time_list := if eval_hr ≥ 0 then
              ref_time_list.filter (fun r => (dtHour r : ℤ) = eval_hr)
            else ref_time_list
          .ok (.lists ref_time_list)

/-! ## files.py : file-manifest construction -/

/-- A timestep string such as "tm02", "f018", or the sub-hour variants
"tm0215" / "f01845", modelled by the numbers the string renders. -/
inductive TsStr
  | tm : ℤ → TsStr
  | tmMin : ℤ → ℕ → TsStr
  | f : ℤ → TsStr
  | fMin : ℤ → ℕ → TsStr
deriving Repr, DecidableEq

/-- One row of the filename-parts dataframe built by the files.py builders:
date directory (as absolute day index), reference-hour string (as the hour),
configuration string, timestep string, and valid time. -/
structure FilePart where
  datedir : ℕ
  ref_hr : ℕ
  config : String
  ts : TsStr
  val_time : ℕ
deriving Repr, DecidableEq

/-- The dataframe initialization the file-parts builders start from:
n_files rows of (ref date dir, t00z, config, tm00, ref time). -/
def init_fileparts (n_files : ℕ) (t0 : ℕ) (config : String) : List FilePart :=
  List.replicate n_files ⟨dtDay t0, 0, config, .tm 0, t0⟩

/-- A loop of the form for i in range(...): df.loc[i, ...] = ..., whose body
touches only row i, modelled as an index-aware map over the rows. -/
def updateRows (f : ℕ → FilePart → FilePart) : ℕ → List FilePart → List FilePart
  | _, [] => []
  | i, r :: rest => f i r :: updateRows f (i + 1) rest

/-- A single assignment df.loc[i, ...] = ... rewriting the fields of row i
(no-op out of range; the modelled call sites never go out of range). -/
def setRow (df : List FilePart) (i : ℕ) (f : FilePart → FilePart) : List FilePart :=
  match df[i]? with
  | some r => df.set i (f r)
  | none => df

/-- Model of Python range(start, stop, step) for a positive step. -/
def pyRange (start stop step : ℕ) : List ℕ :=
  (List.range ((stop - start + step - 1) / step)).map (fun k => start + k * step)

/-- Model of the Python slice l[a:b] for nonnegative bounds. -/
def pySlice {α : Type} (l : List α) (a b : ℕ) : List α := (l.drop a).take (b - a)

/-- The loop body of files.get_forecast_fileparts for index i. -/
def forecast_row (ref_time ts_int : ℕ) (include_t0 : Bool) (i : ℕ) (row : FilePart) : FilePart :=
  if i = 0 ∧ include_t0 then
    -- T0 comes from standard AnA tm00; the date directory is left as initialized
    ⟨row.datedir, dtHour ref_time, "analysis_assim",
      (if ts_int % 1 > 0 then .tmMin 0 0 else .tm 0), ref_time⟩
  else
    let ts_hr := if include_t0 then i * ts_int else (i + 1) * ts_int
    ⟨dtDay ref_time, dtHour ref_time, row.config,
      (if ts_int % 1 > 0 then .fMin ts_hr 0 else .f ts_hr), ref_time + 60 * ts_hr⟩

/-- files.get_forecast_fileparts: filename parts for a forecast configuration. -/
def get_forecast_fileparts (ref_time n_files : ℕ) (df_parts : List FilePart)
    (ts_int : ℕ) (include_t0 : Bool) : List FilePart :=
  updateRows
    (fun i row => if i < n_files then forecast_row ref_time ts_int include_t0 i row else row)
    0 df_parts

/-- The loop body of files.get_simple_ana_fileparts for index i.  Note the
source updates datedir, the reference-hour string, and the timestep string,
but never the val_time column. -/
def simple_ana_row (ref_time : ℕ) (i : ℕ) (row : FilePart) : FilePart :=
  ⟨dtDay ref_time, dtHour ref_time, row.config, .tm i, row.val_time⟩

/-- files.get_simple_ana_fileparts: straightforward filenames for all
timesteps of a given AnA config, looping for i in range(0, n_hours, ts_int)
and finally reversing the rows (iloc[::-1]). -/
def get_simple_ana_fileparts (ref_time n_hours : ℕ) (df_parts : List FilePart)
    (ts_int : ℕ) : List FilePart :=
  (updateRows
    (fun i row => if i < n_hours ∧ i % ts_int = 0 then simple_ana_row ref_time i row else row)
    0 df_parts).reverse

/-- files.build_reftime_fileparts: initialize the parts dataframe and fill it
for a forecast (include_t0 is passed as False to the forecast loop, as in the
source) or an analysis configuration. -/
def build_reftime_fileparts (ref_time : ℕ) (config : String) (n_hours ts_int : ℕ)
    (is_forecast include_t0 : Bool) : List FilePart :=
  let n_files := if include_t0 ∧ is_forecast then n_hours / ts_int + 1 else n_hours / ts_int
  let df_parts := init_fileparts n_files ref_time config
  if is_forecast then get_forecast_fileparts ref_time n_files df_parts ts_int false
  else get_simple_ana_fileparts ref_time n_hours df_parts ts_int

/-- The valid time of iteration i of the files.get_ana_fileparts loop. -/
def anaValTime (start_time : ℕ) (include_t0 : Bool) (i ts_int : ℕ) : ℕ :=
  if include_t0 then start_time + 60 * (i * ts_int) else start_time + 60 * ((i + 1) * ts_int)

/-- The loop body of files.get_ana_fileparts for index i. -/
def ana_row (start_time : ℕ) (config : String) (n_files ts_int : ℕ) (include_t0 : Bool)
    (use_tm02 is_latest : Bool) (clock_ztime : ℕ) (i : ℕ) (row : FilePart) : FilePart :=
  let val_time := anaValTime start_time include_t0 i ts_int
  let (datedir, ref_hr, ts_hr, ts_min) :=
    if config = "analysis_assim_extend" then
      -- e-AnA only runs in the 16z cycle
      let p :=
        if dtHour val_time < 13 then
          -- valid hours 0-12: tm16-tm04 in the same date directory
          (dtDay val_time, (16 : ℤ) - dtHour val_time)
        else
          -- valid hours 13-23: tm27-tm17 in the next date directory
          let nextday := floorHour (val_time + 1440)
          if replaceHour nextday 19 > clock_ztime then
            -- next day not yet available: fill in from the current day,
            -- but if the offset becomes negative switch back to next day
            let fb : ℤ := 16 - (dtHour val_time : ℤ)
            if fb < 0 then (dtDay nextday, (40 : ℤ) - dtHour val_time)
            else (dtDay val_time, fb)
          else (dtDay nextday, (40 : ℤ) - dtHour val_time)
      (p.1, 16, p.2, 0)
    else if use_tm02 then
      -- standard AnA: tm02 from the run issued two hours after the valid time
      let datedir := dtDay (val_time + 120)
      let ref_hr := dtHour (val_time + 120)
      let ts_hr : ℤ := 2
      let val_minutes := dtMinute val_time
      let ts_min := if val_minutes > 0 then 60 - val_minutes else 0
      let (datedir, ref_hr, ts_hr) :=
        if is_latest ∧ n_files - 1 / ts_int - 1 ≤ i then
          (dtDay (val_time + 60), dtHour (val_time + 60), (1 : ℤ))
        else (datedir, ref_hr, ts_hr)
      let (datedir, ref_hr, ts_hr) :=
        if is_latest ∧ i = n_files - 1 then (dtDay val_time, dtHour val_time, (0 : ℤ))
        else (datedir, ref_hr, ts_hr)
      let ts_hr := if val_minutes > 0 then ts_hr - 1 else ts_hr
      (datedir, ref_hr, ts_hr, ts_min)
    else
      -- use the t00 from each standard AnA (currently never used)
      (dtDay val_time, dtHour val_time, (0 : ℤ), 0)
  ⟨datedir, ref_hr, (if is_latest then "analysis_assim" else row.config),
    (if ts_int % 1 > 0 then .tmMin ts_hr ts_min else .tm ts_hr), val_time⟩

/-- files.get_ana_fileparts: filename parts for an AnA configuration.  The
wall clock read (datetime.utcnow()) is passed in as the utcnow parameter. -/
def get_ana_fileparts (start_time : ℕ) (config : String) (n_files ts_int : ℕ)
    (df_parts : List FilePart) (include_t0 : Bool) (use_tm02 is_latest : Bool)
    (utcnow : ℕ) : List FilePart :=
  let clock_ztime := floorHour utcnow
  updateRows
    (fun i row =>
      if i < n_files then
        ana_row start_time config n_files ts_int include_t0 use_tm02 is_latest clock_ztime i row
      else row)
    0 df_parts

/-- The valid-time list pd.date_range(start_time, end_time, freq = H) built at
the top of files.get_latest_ana_fileparts (after the include_t0 adjustment). -/
def latestValTimes (start_time n_hours : ℕ) (include_t0 : Bool) : List ℕ :=
  if include_t0 then dateRange start_time (start_time + 60 * n_hours) 60
  else dateRange (start_time + 60) (start_time + 60 * n_hours) 60

/-- The row written for index i by the last-3-files loop of
files.get_latest_ana_fileparts: most recent standard AnA, referenced to the
run issued at end_time. -/
def latest_tail_row (end_time n_files i : ℕ) (row : FilePart) : FilePart :=
  ⟨dtDay end_time, dtHour end_time, "analysis_assim", .tm (n_files - i - 1 : ℕ), row.val_time⟩

/-- The loop for i in np.arange(n_files-3, n_files) of
files.get_latest_ana_fileparts. -/
def latest_tail (df_parts : List FilePart) (n_files end_time : ℕ) : List FilePart :=
  (pyRange (n_files - 3) n_files 1).foldl
    (fun d i => setRow d i (latest_tail_row end_time n_files i)) df_parts

/-- The backward walk for i in range(n_files-4, -1, -1) of
files.get_latest_ana_fileparts, carrying the current source configuration and
the extended timestep counter.  Returns none when the source would raise a
ValueError from datetime(ivt.year, ivt.month, ivt.day + 1, 16, 0, 0). -/
def latest_walk (val_times : List ℕ) (idxs : List ℕ) (df_parts : List FilePart)
    (config : String) (ext_ts_hour : ℕ) : Option (List FilePart) :=
  match idxs with
  | [] => some df_parts
  | i :: rest =>
    let ivt := val_times.getD i 0
    let ymd := dtYMD ivt
    let vt_hour := dtHour ivt
    -- if the valid time hour hits 16, the last run ext-ana is available:
    -- switch the source configuration and reset the extended counter
    let config2 :=
      if config = "analysis_assim" ∧ vt_hour = 16 then "analysis_assim_extend" else config
    let ext2 := if config = "analysis_assim" ∧ vt_hour = 16 then 0 else ext_ts_hour
    if config2 = "analysis_assim" then
      -- standard: use tm02 from the ref time 2 hours ahead
      let data_time := ivt + 120
      let std_ts_hour : ℕ := 2
      let df2 := setRow df_parts i
        (fun r => ⟨dtDay data_time, dtHour data_time, config2, .tm std_ts_hour, r.val_time⟩)
      latest_walk val_times rest df2 config2 ext2
    else
      -- extended: figure out which date and timestep
      match (if ext2 < 17 then mkDatetime ymd.1 ymd.2.1 ymd.2.2 16
             else mkDatetime ymd.1 ymd.2.1 (ymd.2.2 + 1) 16) with
      | none => none
      | some data_time =>
        let df2 := setRow df_parts i
          (fun r => ⟨dtDay data_time, dtHour data_time, config2, .tm ext2, r.val_time⟩)
        let next_ext := if ext2 = 27 then 4 else ext2 + 1
        latest_walk val_times rest df2 config2 next_ext

/-- files.get_latest_ana_fileparts: splice standard and extended AnA into the
best/most recent available manifest (1-hour timestep; the ts_int and domain
parameters are unused by the source body). -/
def get_latest_ana_fileparts (start_time n_hours ts_int : ℕ) (df_parts : List FilePart)
    (include_t0 : Bool) (domain : String) : Option (List FilePart) :=
  let _ := ts_int
  let _ := domain
  let end_time := start_time + 60 * n_hours
  let val_times := latestValTimes start_time n_hours include_t0
  let n_files := val_times.length
  let df1 := df_parts.zipWith (fun r v => ⟨r.datedir, r.ref_hr, r.config, r.ts, v⟩) val_times
  let df2 := latest_tail df1 n_files end_time
  latest_walk val_times ((List.range (n_files - 3)).reverse) df2 "analysis_assim" 0

/-- files.get_filelist_chunks: split a list of filenames into chunks of n
files each; with include_t0 each chunk also carries the last file of the
prior chunk. -/
def get_filelist_chunks {α : Type} (filelist : List α) (n : ℕ) (include_t0 : Bool) :
    List (List α) × ℕ :=
  let nts := filelist.length
  if nts > n then
    let filelist_chunks :=
      if include_t0 then
        (pyRange 1 nts n).map (fun i =>
          if i + n ≤ nts then pySlice filelist (i - 1) (i + n) else pySlice filelist (i - 1) nts)
      else
        (pyRange 0 nts n).map (fun i =>
          if i + n ≤ nts then pySlice filelist i (i + n) else pySlice filelist i nts)
    (filelist_chunks, filelist_chunks.length)
  else ([filelist], 1)

/-! ## Derived notions used to state the claims -/

/-- The reference time encoded by the date directory and reference-hour
string of a file-parts row. -/
def refTimeOfPart (r : FilePart) : ℕ := 1440 * r.datedir + 60 * r.ref_hr

/-- Signed offset, in minutes, rendered by a timestep string ("tm" negative,
"f" positive). -/
def offsetMinutes : TsStr → ℤ
  | .tm n => -(60 * n)
  | .tmMin n m => -(60 * n + m)
  | .f n => 60 * n
  | .fMin n m => 60 * n + m

/-- A row is extended-counter-sound when, if its configuration is the
extended analysis, its timestep string is tm c with c in [0, 27]. -/
def extOkB (r : FilePart) : Bool :=
  !(r.config == "analysis_assim_extend") ||
    (match r.ts with
     | .tm c => decide (0 ≤ c) && decide (c ≤ 27)
     | _ => false)

/-- Concatenation of chunks after removing the carried boundary duplicate
(the first element of every chunk after the first). -/
def dedup_join {α : Type} : List (List α) → List α
  | [] => []
  | c :: rest => c ++ (rest.map (List.drop 1)).flatten

/-! ## Basic facts about the version resolver -/

theorem nwm_version_mem (t : ℕ) :
    nwm_version t = 20 ∨ nwm_version t = 21 ∨ nwm_version t = 22 := by
  simp only [nwm_version]
  split_ifs <;> simp

theorem nwm_version_bounds (t : ℕ) : ¬ (nwm_version t < 20 ∨ nwm_version t > 22) := by
  rcases nwm_version_mem t with h | h | h <;> rw [h] <;> norm_num

theorem nwm_version_mono {a b : ℕ} (h : a ≤ b) : nwm_version a ≤ nwm_version b := by
  simp only [nwm_version]
  split_ifs <;> omega

theorem nwm_version_sandwich {s t e : ℕ} (h1 : s ≤ t) (h2 : t ≤ e)
    (h : nwm_version s = nwm_version e) : nwm_version t = nwm_version s :=
  le_antisymm (h ▸ nwm_version_mono h2) (nwm_version_mono h1)

theorem config_specs_ne_badVersion (config domain : String) (version : ℕ) (member : ℕ) :
    config_specs config domain version member ≠ .error .badVersion := by
  simp only [config_specs]
  split_ifs <;> simp

/-! ## Claim theorems -/

/-- C1 (code bug witness): in files.get_simple_ana_fileparts the val_time
column is never updated, so every emitted row records the reference time as
its valid time.  At reference time 2022-06-01T16:00Z with the extended
analysis configuration (28 hourly offsets), the first returned row carries
the timestep string tm27 yet records valid time equal to the reference time
2022-06-01T16:00Z, violating valid_time = reference_time + offset. -/
theorem C1_simple_ana_valtime_never_updated :
    (build_reftime_fileparts (dtOf 2022 6 1 16) "analysis_assim_extend" 28 1 false false).head? =
      some ⟨dtDay (dtOf 2022 6 1 16), 16, "analysis_assim_extend", .tm 27, dtOf 2022 6 1 16⟩ ∧
    ¬ (∀ r ∈ build_reftime_fileparts (dtOf 2022 6 1 16) "analysis_assim_extend" 28 1 false false,
        (r.val_time : ℤ) = refTimeOfPart r + offsetMinutes r.ts) := by
  decide

/-- C2 (counterexample): for an analysis_assim_extend artifact with valid
hour 17 (in [13,23]) whose next-day 19z publication instant has not yet
passed (wall clock 2022-06-01T18:00Z), the builder does NOT keep the
current-day run at the negative offset 16 - 17 = -1: it switches back to the
next-day (2022-06-02) date directory at offset tm23. -/
theorem C2_cex_negative_offset_switches_to_next_day :
    replaceHour (floorHour (dtOf 2022 6 1 17 + 1440)) 19 > dtOf 2022 6 1 18 ∧
    (get_ana_fileparts (dtOf 2022 6 1 17) "analysis_assim_extend" 1 1
        (init_fileparts 1 (dtOf 2022 6 1 17) "analysis_assim_extend") true true false
        (dtOf 2022 6 1 18)) =
      [⟨dtDay (dtOf 2022 6 2 0), 16, "analysis_assim_extend", .tm 23, dtOf 2022 6 1 17⟩] ∧
    dtDay (dtOf 2022 6 2 0) ≠ dtDay (dtOf 2022 6 1 17) := by
  decide

/-- C3 (counterexample): in the LatestAna splice starting 2022-06-01T00:00Z
over 20 hours, the walk switches to the Extended source at valid hour 16 and
the row written there uses counter 0 (timestep string tm00), which is not in
the claimed range [4, 27]. -/
theorem C3_cex_extended_counter_zero :
    ((get_latest_ana_fileparts (dtOf 2022 6 1 0) 20 1
        (init_fileparts 21 (dtOf 2022 6 1 0) "latest_ana") true "conus").getD []).getD 16
        ⟨0, 0, "", .tm 0, 0⟩ =
      ⟨dtDay (dtOf 2022 6 1 0), 16, "analysis_assim_extend", .tm 0, dtOf 2022 6 1 16⟩ := by
  decide

/-- C4 (counterexample): with the include-boundary option on, the chunker
splits the 5-artifact list [0,1,2,3,4] at chunk size 2 into [[0,1,2],[2,3,4]]:
both chunks contain 3 > 2 artifacts, so the at-most-n bound fails. -/
theorem C4_cex_chunk_exceeds_max_size :
    (get_filelist_chunks ([0, 1, 2, 3, 4] : List ℕ) 2 true).1 = [[0, 1, 2], [2, 3, 4]] ∧
    ¬ (∀ c ∈ (get_filelist_chunks ([0, 1, 2, 3, 4] : List ℕ) 2 true).1, c.length ≤ 2) := by
  decide

/-- C7: whenever the start and end of the requested range resolve to
different model versions, reftime.reftimes_in_range fails with the
version-mismatch error before producing any reference times. -/
theorem C7_version_span_rejected (domain config : String) (ref_start ref_end : ℕ)
    (h : nwm_version ref_start ≠ nwm_version ref_end) :
    reftimes_in_range domain config ref_start ref_end (-999) = .error .versionSpan := by
  unfold reftimes_in_range
  norm_num [h]

/-- C7 witness: the range 2021-04-19T00:00Z to 2021-04-21T00:00Z spans the
2021-04-20T14:00Z cutover and is rejected with the version-mismatch error. -/
theorem C7_version_span_rejected_witness :
    reftimes_in_range "conus" "short_range" (dtOf 2021 4 19 0) (dtOf 2021 4 21 0) (-999) =
      .error .versionSpan :=
  C7_version_span_rejected "conus" "short_range" _ _ (by decide)

/-- C9: the LatestAna splicer is not total at month boundaries: for the
request starting 2022-05-31T20:00Z over 23 hours, the backward walk reaches
counter 17 at valid time 2022-05-31T23:00Z and the source-date computation
datetime(2022, 5, 31 + 1, 16) is invalid (day 32), so no manifest is
returned. -/
theorem C9_latest_splice_month_end_failure :
    get_latest_ana_fileparts (dtOf 2022 5 31 20) 23 1
      (init_fileparts 24 (dtOf 2022 5 31 20) "latest_ana") true "conus" = none := by
  decide

/-- C10: the version resolver returns exactly one of the three versions
2.0, 2.1, 2.2 (modelled in tenths as 20, 21, 22) for every input timestamp,
and consequently the bad-version error branch inside
reftime.build_reftime_list is unreachable for every input. -/
theorem C10_version_branch_unreachable :
    (∀ t : ℕ, nwm_version t = 20 ∨ nwm_version t = 21 ∨ nwm_version t = 22) ∧
    (∀ (domain : String) (ref_start ref_end : ℕ) (config order : String),
      build_reftime_list domain ref_start ref_end config order ≠ .error .badVersion) := by
  refine ⟨nwm_version_mem, ?_⟩
  intro domain ref_start ref_end config order
  simp only [build_reftime_list]
  rcases hcs : config_specs config domain (nwm_version ref_start) 1 with e | spec <;>
    dsimp only <;> split_ifs with h1 h2 h3 <;>
      first
        | exact absurd h3 (nwm_version_bounds ref_start)
        | (intro hc; injection hc with he;
           exact config_specs_ne_badVersion config domain (nwm_version ref_start) 1
             (hcs.trans (by rw [he])))
        | simp

/-! ## Facts about pyRange and pySlice -/

theorem pyRange_eq_nil {start stop step : ℕ} (hs : 0 < step) (h : stop ≤ start) :
    pyRange start stop step = [] := by
  simp only [pyRange]
  have h0 : stop - start = 0 := by omega
  rw [h0]
  have : (0 + step - 1) / step = 0 := Nat.div_eq_of_lt (by omega)
  rw [this]
  simp

theorem pyRange_cons {start stop step : ℕ} (hs : 0 < step) (h : start < stop) :
    pyRange start stop step = start :: pyRange (start + step) stop step := by
  simp only [pyRange]
  have hcount : (stop - start + step - 1) / step
      = (stop - (start + step) + step - 1) / step + 1 := by
    have h1 : stop - start + step - 1 = (stop - start - 1) + step := by omega
    have h2 : (stop - (start + step) + step - 1) / step = (stop - start - 1) / step := by
      rcases le_or_lt (start + step) stop with hle | hlt
      · have : stop - (start + step) + step - 1 = stop - start - 1 := by omega
        rw [this]
      · have he : stop - (start + step) + step - 1 = step - 1 := by omega
        rw [he, Nat.div_eq_of_lt (by omega), Nat.div_eq_of_lt (by omega)]
    rw [h1, Nat.add_div_right _ hs, h2]
  rw [hcount, List.range_succ_eq_map, List.map_cons, List.map_map]
  simp only [Nat.zero_mul, Nat.add_zero]
  congr 1
  refine List.map_congr_left ?_
  intro k _
  simp only [Function.comp_apply, Nat.succ_eq_add_one]
  ring

theorem pyRange_mem {start stop step i : ℕ} (hs : 0 < step)
    (hi : i ∈ pyRange start stop step) : start ≤ i ∧ i < stop := by
  simp only [pyRange, List.mem_map, List.mem_range] at hi
  obtain ⟨k, hk, rfl⟩ := hi
  refine ⟨Nat.le_add_right _ _, ?_⟩
  have h1 : (k + 1) * step ≤ ((stop - start + step - 1) / step) * step :=
    Nat.mul_le_mul_right _ hk
  have h2 : ((stop - start + step - 1) / step) * step ≤ stop - start + step - 1 :=
    Nat.div_mul_le_self _ _
  have h3 : (k + 1) * step = k * step + step := by ring
  omega

theorem pySlice_clip {α : Type} (l : List α) (a b : ℕ) :
    (if b ≤ l.length then pySlice l a b else pySlice l a l.length) = pySlice l a b := by
  split_ifs with h
  · rfl
  · simp only [pySlice]
    rw [List.take_of_length_le, List.take_of_length_le]
    · simp only [List.length_drop]
      omega
    · simp only [List.length_drop]
      omega

theorem pySlice_length_le {α : Type} (l : List α) (a b : ℕ) :
    (pySlice l a b).length ≤ b - a := by
  simp only [pySlice, List.length_take, List.length_drop]
  omega

theorem join_pySlices {α : Type} (l : List α) {n : ℕ} (hn : 0 < n) (s : ℕ) :
    ((pyRange s l.length n).map (fun i => pySlice l i (i + n))).flatten = l.drop s := by
  suffices H : ∀ (fuel s : ℕ), l.length - s ≤ fuel →
      ((pyRange s l.length n).map (fun i => pySlice l i (i + n))).flatten = l.drop s from
    H (l.length - s) s le_rfl
  intro fuel
  induction fuel with
  | zero =>
    intro s hsf
    have hle : l.length ≤ s := by omega
    rw [pyRange_eq_nil hn hle]
    simp [List.drop_eq_nil_of_le hle]
  | succ k ih =>
    intro s hsf
    rcases le_or_lt l.length s with hle | hlt
    · rw [pyRange_eq_nil hn hle]
      simp [List.drop_eq_nil_of_le hle]
    · rw [pyRange_cons hn hlt, List.map_cons, List.flatten_cons, ih (s + n) (by omega)]
      simp only [pySlice, Nat.add_sub_cancel_left]
      calc (l.drop s).take n ++ l.drop (s + n)
          = (l.drop s).take n ++ (l.drop s).drop n := by rw [List.drop_drop]
        _ = l.drop s := List.take_append_drop _ _

/-- C4 (amended): without the include-boundary option every chunk contains
at most n artifacts; with it (the last artifact of the prior chunk carried
into the next chunk) every chunk contains at most n + 1 artifacts. -/
theorem C4_amended_chunk_size_bound {α : Type} (l : List α) (n : ℕ) (hn : 0 < n)
    (include_t0 : Bool) :
    ∀ c ∈ (get_filelist_chunks l n include_t0).1,
      c.length ≤ if include_t0 then n + 1 else n := by
  intro c hc
  cases include_t0 with
  | true =>
    simp only [get_filelist_chunks, if_true] at hc ⊢
    split_ifs at hc with hlen
    · simp only [List.mem_map] at hc
      obtain ⟨i, hi, rfl⟩ := hc
      obtain ⟨hi1, hi2⟩ := pyRange_mem hn hi
      split_ifs with hb
      · have := pySlice_length_le l (i - 1) (i + n)
        omega
      · have := pySlice_length_le l (i - 1) l.length
        omega
    · simp only [List.mem_singleton] at hc
      subst hc
      omega
  | false =>
    simp only [get_filelist_chunks, if_false, Bool.false_eq_true] at hc ⊢
    split_ifs at hc with hlen
    · simp only [List.mem_map] at hc
      obtain ⟨i, hi, rfl⟩ := hc
      obtain ⟨hi1, hi2⟩ := pyRange_mem hn hi
      split_ifs with hb
      · have := pySlice_length_le l i (i + n)
        omega
      · have := pySlice_length_le l i l.length
        omega
    · simp only [List.mem_singleton] at hc
      subst hc
      omega

/-- C4 amended witness: at the concrete case of the counterexample (chunk
size 2, include-boundary on), the first chunk holds at most 3 artifacts. -/
theorem C4_amended_chunk_size_bound_witness :
    ((get_filelist_chunks ([0, 1, 2, 3, 4] : List ℕ) 2 true).1.headI).length ≤ 3 := by
  have h := C4_amended_chunk_size_bound ([0, 1, 2, 3, 4] : List ℕ) 2 (by decide) true
    ((get_filelist_chunks ([0, 1, 2, 3, 4] : List ℕ) 2 true).1.headI) (by decide)
  simpa using h

/-- C5: concatenating all chunks, after removing the carried boundary
duplicate (the first element of every chunk after the first) when the
include-boundary option is on, reproduces the original filelist exactly and
in order; and with the boundary option the first chunk begins at the
true first artifact of the filelist. -/
theorem C5_chunks_reassemble {α : Type} (l : List α) (n : ℕ) (hn : 0 < n) :
    (get_filelist_chunks l n false).1.flatten = l ∧
    dedup_join (get_filelist_chunks l n true).1 = l ∧
    (get_filelist_chunks l n true).1.headI.head? = l.head? := by
  refine ⟨?_, ?_, ?_⟩
  · simp only [get_filelist_chunks, Bool.false_eq_true, if_false]
    split_ifs with hlen
    · rw [List.map_congr_left (fun i _ => pySlice_clip l i (i + n)),
        join_pySlices l hn 0, List.drop_zero]
    · simp
  · simp only [get_filelist_chunks, if_true]
    split_ifs with hlen
    · have h1lt : 1 < l.length := by omega
      rw [pyRange_cons hn h1lt, List.map_cons]
      simp only [dedup_join, List.map_map]
      have hc0 : (if 1 + n ≤ l.length then pySlice l (1 - 1) (1 + n)
          else pySlice l (1 - 1) l.length) = pySlice l 0 (1 + n) := pySlice_clip l (1 - 1) (1 + n)
      rw [hc0]
      have hrest : ((pyRange (1 + n) l.length n).map
          (List.drop 1 ∘ fun i => if i + n ≤ l.length then pySlice l (i - 1) (i + n)
            else pySlice l (i - 1) l.length)) =
          (pyRange (1 + n) l.length n).map (fun i => pySlice l i (i + n)) := by
        refine List.map_congr_left ?_
        intro i hi
        obtain ⟨hi1, _⟩ := pyRange_mem hn hi
        simp only [Function.comp_apply]
        rw [pySlice_clip l (i - 1) (i + n)]
        simp only [pySlice]
        rw [List.drop_take, List.drop_drop]
        congr 1
        · omega
        · congr 1
          omega
      rw [hrest, join_pySlices l hn (1 + n)]
      simp only [pySlice, List.drop_zero, Nat.sub_zero]
      exact List.take_append_drop _ _
    · simp [dedup_join]
  · simp only [get_filelist_chunks, if_true]
    split_ifs with hlen
    · have h1lt : 1 < l.length := by omega
      rw [pyRange_cons hn h1lt, List.map_cons]
      simp only [List.headI]
      rw [pySlice_clip l (1 - 1) (1 + n)]
      simp only [pySlice, List.drop_zero, Nat.sub_zero, List.head?_take]
      split_ifs with h0
      · omega
      · rfl
    · simp

/-- C5 witness: the chunker at the 5-artifact list [0,1,2,3,4] with chunk
size 2 reassembles to the original list in both modes, and the first chunk
begins at the first artifact. -/
theorem C5_chunks_reassemble_witness :
    (get_filelist_chunks ([0, 1, 2, 3, 4] : List ℕ) 2 false).1.flatten = [0, 1, 2, 3, 4] ∧
    dedup_join (get_filelist_chunks ([0, 1, 2, 3, 4] : List ℕ) 2 true).1 = [0, 1, 2, 3, 4] ∧
    (get_filelist_chunks ([0, 1, 2, 3, 4] : List ℕ) 2 true).1.headI.head? =
      ([0, 1, 2, 3, 4] : List ℕ).head? :=
  C5_chunks_reassemble ([0, 1, 2, 3, 4] : List ℕ) 2 (by decide)

/-! ## Facts about row updates -/

theorem updateRows_getElem? (f : ℕ → FilePart → FilePart) :
    ∀ (l : List FilePart) (s j : ℕ), (updateRows f s l)[j]? = (l[j]?).map (f (s + j)) := by
  intro l
  induction l with
  | nil => intro s j; simp [updateRows]
  | cons r rest ih =>
    intro s j
    cases j with
    | zero => simp [updateRows]
    | succ k =>
      have hidx : s + 1 + k = s + (k + 1) := by omega
      simp only [updateRows, List.getElem?_cons_succ, ih (s + 1) k, hidx]

theorem dtDay_floorHour_add_day (t : ℕ) : dtDay (floorHour (t + 1440)) = dtDay t + 1 := by
  simp only [dtDay, floorHour]
  omega

/-- C2 (amended): for every analysis_assim_extend artifact whose valid-time
hour is in [13,23], if the next-day 19z publication instant has not yet
passed at the wall clock, the artifact is emitted from the current-day 16z
run at offset 16 - hour when that offset is nonnegative (hours 13-16), and
from the next-day 16z run at offset 40 - hour when 16 - hour would be
negative (hours 17-23); either way the artifact is placed in the manifest at
its position. -/
theorem C2_amended_extend_fallback (start_time n_files ts_int : ℕ) (df : List FilePart)
    (include_t0 : Bool) (utcnow : ℕ) (i : ℕ) (r0 : FilePart)
    (hi : i < n_files) (hr : df[i]? = some r0)
    (hh : 13 ≤ dtHour (anaValTime start_time include_t0 i ts_int))
    (hclock : floorHour utcnow <
      replaceHour (floorHour (anaValTime start_time include_t0 i ts_int + 1440)) 19) :
    (get_ana_fileparts start_time "analysis_assim_extend" n_files ts_int df include_t0
        true false utcnow)[i]? =
      some ⟨(if dtHour (anaValTime start_time include_t0 i ts_int) ≤ 16
              then dtDay (anaValTime start_time include_t0 i ts_int)
              else dtDay (anaValTime start_time include_t0 i ts_int) + 1),
            16, r0.config,
            .tm (if dtHour (anaValTime start_time include_t0 i ts_int) ≤ 16
                 then 16 - (dtHour (anaValTime start_time include_t0 i ts_int) : ℤ)
                 else 40 - (dtHour (anaValTime start_time include_t0 i ts_int) : ℤ)),
            anaValTime start_time include_t0 i ts_int⟩ := by
  simp only [get_ana_fileparts]
  rw [updateRows_getElem?, Nat.zero_add, hr, Option.map_some', if_pos hi]
  simp only [ana_row, if_pos rfl]
  rw [if_neg (by omega : ¬ dtHour (anaValTime start_time include_t0 i ts_int) < 13)]
  rw [if_pos hclock]
  by_cases h16 : dtHour (anaValTime start_time include_t0 i ts_int) ≤ 16
  · rw [if_neg (by omega :
      ¬ (16 - (dtHour (anaValTime start_time include_t0 i ts_int) : ℤ) < 0))]
    simp [if_pos h16, Nat.mod_one]
  · rw [if_pos (by omega :
      (16 - (dtHour (anaValTime start_time include_t0 i ts_int) : ℤ) < 0))]
    simp [if_neg h16, Nat.mod_one, dtDay_floorHour_add_day]

/-- C2 amended witness: valid hour 14 with the next-day run not yet posted
(wall clock 2022-06-01T18:00Z) yields the current-day artifact at tm02. -/
theorem C2_amended_extend_fallback_witness :
    (get_ana_fileparts (dtOf 2022 6 1 14) "analysis_assim_extend" 1 1
        (init_fileparts 1 (dtOf 2022 6 1 14) "analysis_assim_extend") true true false
        (dtOf 2022 6 1 18))[0]? =
      some ⟨dtDay (dtOf 2022 6 1 14), 16, "analysis_assim_extend", .tm 2, dtOf 2022 6 1 14⟩ := by
  have h := C2_amended_extend_fallback (dtOf 2022 6 1 14) 1 1
    (init_fileparts 1 (dtOf 2022 6 1 14) "analysis_assim_extend") true (dtOf 2022 6 1 18) 0
    ⟨dtDay (dtOf 2022 6 1 14), 0, "analysis_assim_extend", .tm 0, dtOf 2022 6 1 14⟩
    (by decide) (by decide) (by decide) (by decide)
  rw [h]
  decide

/-! ## Invariants of the LatestAna splice walk -/

theorem setRow_forall {P : FilePart → Prop} {df : List FilePart} {i : ℕ}
    {f : FilePart → FilePart} (hdf : ∀ r ∈ df, P r) (hf : ∀ r, P (f r)) :
    ∀ r ∈ setRow df i f, P r := by
  intro r hr
  simp only [setRow] at hr
  cases h : df[i]? with
  | none => rw [h] at hr; exact hdf r hr
  | some r0 =>
    rw [h] at hr
    rcases List.mem_or_eq_of_mem_set hr with hmem | rfl
    · exact hdf r hmem
    · exact hf r0

theorem walk_extOk (vts : List ℕ) :
    ∀ (idxs : List ℕ) (df : List FilePart) (config : String) (e : ℕ) (out : List FilePart),
      e ≤ 27 → (∀ r ∈ df, extOkB r = true) →
      latest_walk vts idxs df config e = some out → ∀ r ∈ out, extOkB r = true := by
  intro idxs
  induction idxs with
  | nil =>
    intro df config e out _ hdf hw
    injection hw with h
    subst h
    exact hdf
  | cons i rest ih =>
    intro df config e out he hdf hw
    simp only [latest_walk] at hw
    by_cases hsw : config = "analysis_assim" ∧ dtHour (vts.getD i 0) = 16
    · rw [if_pos hsw, if_pos hsw] at hw
      rw [if_neg (by decide : ¬ ("analysis_assim_extend" = "analysis_assim"))] at hw
      rw [if_pos (by omega : (0 : ℕ) < 17)] at hw
      cases hmk : mkDatetime (dtYMD (vts.getD i 0)).1 (dtYMD (vts.getD i 0)).2.1
          (dtYMD (vts.getD i 0)).2.2 16 with
      | none => rw [hmk] at hw; exact absurd hw (by simp)
      | some dt =>
        rw [hmk] at hw
        refine ih _ _ _ out (by norm_num) ?_ hw
        refine setRow_forall hdf ?_
        intro r0
        simp [extOkB]
    · rw [if_neg hsw, if_neg hsw] at hw
      by_cases hstd : config = "analysis_assim"
      · rw [if_pos hstd] at hw
        refine ih _ _ _ out he ?_ hw
        refine setRow_forall hdf ?_
        intro r0
        subst hstd
        simp [extOkB]
      · rw [if_neg hstd] at hw
        cases hlt : (if e < 17 then
            mkDatetime (dtYMD (vts.getD i 0)).1 (dtYMD (vts.getD i 0)).2.1
              (dtYMD (vts.getD i 0)).2.2 16
          else mkDatetime (dtYMD (vts.getD i 0)).1 (dtYMD (vts.getD i 0)).2.1
              ((dtYMD (vts.getD i 0)).2.2 + 1) 16) with
        | none => rw [hlt] at hw; exact absurd hw (by simp)
        | some dt =>
          rw [hlt] at hw
          refine ih _ _ _ out ?_ ?_ hw
          · split_ifs <;> omega
          · refine setRow_forall hdf ?_
            intro r0
            by_cases hce : config = "analysis_assim_extend"
            · simp only [extOkB, hce]
              simp
              omega
            · simp [extOkB, hce]

theorem latest_tail_extOk {df : List FilePart} {n e : ℕ}
    (hdf : ∀ r ∈ df, extOkB r = true) : ∀ r ∈ latest_tail df n e, extOkB r = true := by
  simp only [latest_tail]
  generalize pyRange (n - 3) n 1 = is
  induction is generalizing df with
  | nil => exact hdf
  | cons i rest ih =>
    simp only [List.foldl_cons]
    refine ih (setRow_forall hdf ?_)
    intro r0
    simp [latest_tail_row, extOkB]

theorem zipWith_val_extOk : ∀ (df : List FilePart) (vts : List ℕ),
    (∀ r ∈ df, extOkB r = true) →
    ∀ r ∈ df.zipWith (fun r v => ⟨r.datedir, r.ref_hr, r.config, r.ts, v⟩) vts,
      extOkB r = true := by
  intro df
  induction df with
  | nil => intro vts _ r hr; simp at hr
  | cons a rest ih =>
    intro vts hdf r hr
    cases vts with
    | nil => simp at hr
    | cons v vrest =>
      simp only [List.zipWith_cons_cons, List.mem_cons] at hr
      rcases hr with rfl | hr
      · have := hdf a (by simp)
        simpa [extOkB] using this
      · exact ih vrest (fun x hx => hdf x (by simp [hx])) r hr

/-- C3 (amended): in the LatestAna splice walk, every row whose source is
the Extended configuration carries a tm counter in the range [0, 27] (the
counter is reset to 0 at the switch at valid hour 16, advances by 1 per
backward step, and wraps from 27 back to 4), provided the input rows already
satisfy the property (the initialized dataframe does). -/
theorem C3_amended_extended_counter_range (start_time n_hours ts_int : ℕ)
    (df : List FilePart) (include_t0 : Bool) (domain : String) (rows : List FilePart)
    (hdf : ∀ r ∈ df, extOkB r = true)
    (hw : get_latest_ana_fileparts start_time n_hours ts_int df include_t0 domain = some rows) :
    ∀ r ∈ rows, extOkB r = true := by
  simp only [get_latest_ana_fileparts] at hw
  exact walk_extOk _ _ _ _ _ rows (by omega)
    (latest_tail_extOk (zipWith_val_extOk df _ hdf)) hw

/-- C3 amended witness: at the concrete splice of the counterexample every
row is extended-counter-sound (counter within [0, 27]). -/
theorem C3_amended_extended_counter_range_witness :
    ((get_latest_ana_fileparts (dtOf 2022 6 1 0) 20 1
        (init_fileparts 21 (dtOf 2022 6 1 0) "latest_ana") true "conus").getD []).all
      extOkB = true := by
  refine List.all_eq_true.mpr ?_
  exact C3_amended_extended_counter_range (dtOf 2022 6 1 0) 20 1
    (init_fileparts 21 (dtOf 2022 6 1 0) "latest_ana") true "conus" _
    (by decide) (by decide)

/-! ## Index computations for the LatestAna splice -/

theorem dateRange_length {start stop stepMin : ℕ} (h : start ≤ stop) :
    (dateRange start stop stepMin).length = (stop - start) / stepMin + 1 := by
  simp [dateRange, if_neg (by omega : ¬ stop < start)]

theorem dateRange_getElem? {start stop stepMin k : ℕ} (h : start ≤ stop)
    (hk : k < (stop - start) / stepMin + 1) :
    (dateRange start stop stepMin)[k]? = some (start + k * stepMin) := by
  simp only [dateRange, if_neg (by omega : ¬ stop < start)]
  rw [List.getElem?_map, List.getElem?_range hk]
  rfl

theorem latestValTimes_getElem (start_time n_hours : ℕ) (include_t0 : Bool) (k : ℕ)
    (hk : k < (latestValTimes start_time n_hours include_t0).length) :
    (latestValTimes start_time n_hours include_t0)[k]? =
      some (start_time + 60 * n_hours -
        60 * ((latestValTimes start_time n_hours include_t0).length - 1 - k)) := by
  cases include_t0 with
  | true =>
    simp only [latestValTimes, if_true] at hk ⊢
    have hse : start_time ≤ start_time + 60 * n_hours := by omega
    rw [dateRange_length hse] at hk ⊢
    rw [dateRange_getElem? hse hk]
    congr 1
    omega
  | false =>
    simp only [latestValTimes, Bool.false_eq_true, if_false] at hk ⊢
    rcases Nat.eq_zero_or_pos n_hours with h0 | hpos
    · subst h0
      rw [show dateRange (start_time + 60) (start_time + 60 * 0) 60 = [] from by
        simp [dateRange]] at hk
      simp at hk
    · have hse : start_time + 60 ≤ start_time + 60 * n_hours := by omega
      rw [dateRange_length hse] at hk ⊢
      rw [dateRange_getElem? hse hk]
      congr 1
      omega

theorem setRow_getElem?_ne {df : List FilePart} {i j : ℕ} {f : FilePart → FilePart}
    (h : i ≠ j) : (setRow df i f)[j]? = df[j]? := by
  simp only [setRow]
  cases hi : df[i]?
  · rfl
  · exact List.getElem?_set_ne h

theorem setRow_getElem?_self {df : List FilePart} {i : ℕ} {f : FilePart → FilePart} :
    (setRow df i f)[i]? = (df[i]?).map f := by
  simp only [setRow]
  cases hi : df[i]? with
  | none => simp [hi]
  | some r =>
    have hilt : i < df.length := by
      by_contra hc
      rw [List.getElem?_eq_none (by omega)] at hi
      exact Option.noConfusion hi
    rw [List.getElem?_set, if_pos rfl, if_pos hilt]
    rfl

theorem zipWith_getElem?_eq {α β γ : Type} {f : α → β → γ} {l1 : List α} {l2 : List β}
    {j : ℕ} {a : α} {b : β} (ha : l1[j]? = some a) (hb : l2[j]? = some b) :
    (l1.zipWith f l2)[j]? = some (f a b) := by
  rw [List.getElem?_zipWith, ha, hb]

theorem walk_getElem?_preserved (vts : List ℕ) :
    ∀ (idxs : List ℕ) (df : List FilePart) (config : String) (e : ℕ)
      (out : List FilePart) (j : ℕ), (∀ k ∈ idxs, k ≠ j) →
      latest_walk vts idxs df config e = some out → out[j]? = df[j]? := by
  intro idxs
  induction idxs with
  | nil =>
    intro df config e out j _ hw
    injection hw with h
    subst h
    rfl
  | cons i rest ih =>
    intro df config e out j hk hw
    have hij : i ≠ j := hk i (by simp)
    have hrest : ∀ k ∈ rest, k ≠ j := fun k hkr => hk k (by simp [hkr])
    simp only [latest_walk] at hw
    by_cases hsw : config = "analysis_assim" ∧ dtHour (vts.getD i 0) = 16
    · rw [if_pos hsw, if_pos hsw] at hw
      rw [if_neg (by decide : ¬ ("analysis_assim_extend" = "analysis_assim"))] at hw
      rw [if_pos (by omega : (0 : ℕ) < 17)] at hw
      cases hmk : mkDatetime (dtYMD (vts.getD i 0)).1 (dtYMD (vts.getD i 0)).2.1
          (dtYMD (vts.getD i 0)).2.2 16 with
      | none => rw [hmk] at hw; exact absurd hw (by simp)
      | some dt =>
        rw [hmk] at hw
        rw [ih _ _ _ out j hrest hw, setRow_getElem?_ne hij]
    · rw [if_neg hsw, if_neg hsw] at hw
      by_cases hstd : config = "analysis_assim"
      · rw [if_pos hstd] at hw
        rw [ih _ _ _ out j hrest hw, setRow_getElem?_ne hij]
      · rw [if_neg hstd] at hw
        cases hlt : (if e < 17 then
            mkDatetime (dtYMD (vts.getD i 0)).1 (dtYMD (vts.getD i 0)).2.1
              (dtYMD (vts.getD i 0)).2.2 16
          else mkDatetime (dtYMD (vts.getD i 0)).1 (dtYMD (vts.getD i 0)).2.1
              ((dtYMD (vts.getD i 0)).2.2 + 1) 16) with
        | none => rw [hlt] at hw; exact absurd hw (by simp)
        | some dt =>
          rw [hlt] at hw
          rw [ih _ _ _ out j hrest hw, setRow_getElem?_ne hij]

theorem pyRange_three {n : ℕ} (hn : 3 ≤ n) : pyRange (n - 3) n 1 = [n - 3, n - 2, n - 1] := by
  rw [pyRange_cons (by norm_num) (by omega)]
  have h1 : n - 3 + 1 = n - 2 := by omega
  rw [h1, pyRange_cons (by norm_num) (by omega)]
  have h2 : n - 2 + 1 = n - 1 := by omega
  rw [h2, pyRange_cons (by norm_num) (by omega)]
  have h3 : n - 1 + 1 = n := by omega
  rw [h3, pyRange_eq_nil (by norm_num) (le_refl n)]

theorem latest_tail_getElem {df1 : List FilePart} {n endt j : ℕ} (hn : 3 ≤ n)
    (hj1 : n - 3 ≤ j) (hj2 : j < n) :
    (latest_tail df1 n endt)[j]? = (df1[j]?).map (latest_tail_row endt n j) := by
  simp only [latest_tail, pyRange_three hn, List.foldl_cons, List.foldl_nil]
  rcases (by omega : j = n - 3 ∨ j = n - 2 ∨ j = n - 1) with rfl | rfl | rfl
  · rw [setRow_getElem?_ne (by omega), setRow_getElem?_ne (by omega), setRow_getElem?_self]
  · rw [setRow_getElem?_ne (by omega), setRow_getElem?_self, setRow_getElem?_ne (by omega)]
  · rw [setRow_getElem?_self, setRow_getElem?_ne (by omega), setRow_getElem?_ne (by omega)]

/-- C6: for every LatestAna splice over at least 3 valid times that returns
a manifest, the 3 most recent valid times are assigned the standard-analysis
source at offsets tm02, tm01, tm00 (in increasing valid-time order), all
referenced to the run issued at the final valid time (its date directory and
reference-hour string). -/
theorem C6_latest_tail_standard (start_time n_hours ts_int : ℕ) (df : List FilePart)
    (include_t0 : Bool) (domain : String) (rows : List FilePart)
    (hlen : df.length = (latestValTimes start_time n_hours include_t0).length)
    (hn : 3 ≤ (latestValTimes start_time n_hours include_t0).length)
    (hw : get_latest_ana_fileparts start_time n_hours ts_int df include_t0 domain = some rows) :
    rows[(latestValTimes start_time n_hours include_t0).length - 1]? =
      some ⟨dtDay (start_time + 60 * n_hours), dtHour (start_time + 60 * n_hours),
        "analysis_assim", .tm 0, start_time + 60 * n_hours⟩ ∧
    rows[(latestValTimes start_time n_hours include_t0).length - 2]? =
      some ⟨dtDay (start_time + 60 * n_hours), dtHour (start_time + 60 * n_hours),
        "analysis_assim", .tm 1, start_time + 60 * n_hours - 60⟩ ∧
    rows[(latestValTimes start_time n_hours include_t0).length - 3]? =
      some ⟨dtDay (start_time + 60 * n_hours), dtHour (start_time + 60 * n_hours),
        "analysis_assim", .tm 2, start_time + 60 * n_hours - 120⟩ := by
  simp only [get_latest_ana_fileparts] at hw
  have hkey : ∀ j, (latestValTimes start_time n_hours include_t0).length - 3 ≤ j →
      j < (latestValTimes start_time n_hours include_t0).length →
      rows[j]? = some ⟨dtDay (start_time + 60 * n_hours), dtHour (start_time + 60 * n_hours),
        "analysis_assim",
        .tm (((latestValTimes start_time n_hours include_t0).length - j - 1 : ℕ) : ℤ),
        start_time + 60 * n_hours -
          60 * ((latestValTimes start_time n_hours include_t0).length - 1 - j)⟩ := by
    intro j hj1 hj2
    have hpr := walk_getElem?_preserved (latestValTimes start_time n_hours include_t0)
      _ _ _ _ rows j
      (by intro k hk; rw [List.mem_reverse, List.mem_range] at hk; omega) hw
    rw [hpr, latest_tail_getElem hn hj1 hj2,
      zipWith_getElem?_eq (List.getElem?_eq_getElem (show j < df.length by omega))
        (latestValTimes_getElem start_time n_hours include_t0 j (by omega)),
      Option.map_some']
    simp only [latest_tail_row]
  set L := (latestValTimes start_time n_hours include_t0).length with hLdef
  refine ⟨?_, ?_, ?_⟩
  · rw [hkey (L - 1) (by omega) (by omega)]
    simp only [Option.some_inj, FilePart.mk.injEq, TsStr.tm.injEq, true_and]
    omega
  · rw [hkey (L - 2) (by omega) (by omega)]
    simp only [Option.some_inj, FilePart.mk.injEq, TsStr.tm.injEq, true_and]
    omega
  · rw [hkey (L - 3) (by omega) (by omega)]
    simp only [Option.some_inj, FilePart.mk.injEq, TsStr.tm.injEq, true_and]
    omega

/-- C6 witness: the concrete splice starting 2022-06-01T00:00Z over 4 hours
(5 valid times) carries tm02, tm01, tm00 from the 2022-06-01T04:00Z standard
run in its last three rows. -/
theorem C6_latest_tail_standard_witness :
    ((get_latest_ana_fileparts (dtOf 2022 6 1 0) 4 1
        (init_fileparts 5 (dtOf 2022 6 1 0) "latest_ana") true "conus").getD [])[4]? =
      some ⟨dtDay (dtOf 2022 6 1 0 + 60 * 4), dtHour (dtOf 2022 6 1 0 + 60 * 4),
        "analysis_assim", .tm 0, dtOf 2022 6 1 0 + 60 * 4⟩ ∧
    ((get_latest_ana_fileparts (dtOf 2022 6 1 0) 4 1
        (init_fileparts 5 (dtOf 2022 6 1 0) "latest_ana") true "conus").getD [])[3]? =
      some ⟨dtDay (dtOf 2022 6 1 0 + 60 * 4), dtHour (dtOf 2022 6 1 0 + 60 * 4),
        "analysis_assim", .tm 1, dtOf 2022 6 1 0 + 60 * 4 - 60⟩ ∧
    ((get_latest_ana_fileparts (dtOf 2022 6 1 0) 4 1
        (init_fileparts 5 (dtOf 2022 6 1 0) "latest_ana") true "conus").getD [])[2]? =
      some ⟨dtDay (dtOf 2022 6 1 0 + 60 * 4), dtHour (dtOf 2022 6 1 0 + 60 * 4),
        "analysis_assim", .tm 2, dtOf 2022 6 1 0 + 60 * 4 - 120⟩ := by
  have h := C6_latest_tail_standard (dtOf 2022 6 1 0) 4 1
    (init_fileparts 5 (dtOf 2022 6 1 0) "latest_ana") true "conus"
    ((get_latest_ana_fileparts (dtOf 2022 6 1 0) 4 1
      (init_fileparts 5 (dtOf 2022 6 1 0) "latest_ana") true "conus").getD [])
    (by decide) (by decide) (by decide)
  have hL : (latestValTimes (dtOf 2022 6 1 0) 4 true).length = 5 := by decide
  rw [hL] at h
  exact h

/-! ## Idempotence of reference-time scheduling -/

theorem config_specs_cadence {config domain : String} {version member : ℕ}
    {spec : ConfigSpecs} (h : config_specs config domain version member = .ok spec) :
    (spec.runs_per_day = 24 ∨ spec.runs_per_day = 4 ∨ spec.runs_per_day = 2 ∨
      spec.runs_per_day = 1) ∧ spec.base_run_hour < 24 := by
  simp only [config_specs] at h
  split_ifs at h <;>
    first
      | exact Except.noConfusion h
      | (injection h with h2; subst h2; refine ⟨by simp, by simp⟩)

theorem snap_ref_start_ge (spec : ConfigSpecs) (t : ℕ) :
    t ≤ snap_ref_start spec t := by
  simp only [snap_ref_start, replaceHour, dtHour]
  split_ifs <;> omega

theorem snap_ref_start_idem (spec : ConfigSpecs) (t : ℕ)
    (hr : spec.runs_per_day = 24 ∨ spec.runs_per_day = 4 ∨ spec.runs_per_day = 2 ∨
      spec.runs_per_day = 1)
    (hb : spec.base_run_hour < 24) :
    snap_ref_start spec (snap_ref_start spec t) = snap_ref_start spec t := by
  rcases hr with h | h | h | h
  · simp [snap_ref_start, replaceHour, dtHour, h]
  · simp only [snap_ref_start, replaceHour, dtHour, h]
    norm_num
    split_ifs <;> omega
  · simp only [snap_ref_start, replaceHour, dtHour, h]
    norm_num
    split_ifs <;> omega
  · simp only [snap_ref_start, replaceHour, dtHour, h]
    norm_num
    split_ifs <;> omega

theorem dateRange_head? {start stop stepMin : ℕ} (h : start ≤ stop) :
    (dateRange start stop stepMin).head? = some start := by
  simp only [dateRange, if_neg (by omega : ¬ stop < start)]
  rw [List.range_succ_eq_map]
  simp

theorem dateRange_getLast? {start stop stepMin : ℕ} (h : start ≤ stop) :
    (dateRange start stop stepMin).getLast? =
      some (start + ((stop - start) / stepMin) * stepMin) := by
  simp only [dateRange, if_neg (by omega : ¬ stop < start)]
  rw [List.getLast?_map, List.range_succ, List.getLast?_concat]
  rfl

theorem dateRange_truncate {start stop stepMin : ℕ} (h : start ≤ stop) (hs : 0 < stepMin) :
    dateRange start (start + ((stop - start) / stepMin) * stepMin) stepMin =
      dateRange start stop stepMin := by
  simp only [dateRange, if_neg (by omega : ¬ stop < start),
    if_neg (by omega : ¬ start + (stop - start) / stepMin * stepMin < start)]
  rw [Nat.add_sub_cancel_left, Nat.mul_div_cancel _ hs]

theorem build_reftime_list_ok {domain config : String} {s e : ℕ} {R : List ℕ}
    (h : build_reftime_list domain s e config "ascending" = .ok R) (hR : R ≠ []) :
    ∃ spec, config_specs config domain (nwm_version s) 1 = .ok spec ∧
      ¬ (domain = "hawaii" ∧ config = "medium_range") ∧
      snap_ref_start spec s ≤ e ∧ s ≤ e ∧
      R = dateRange (snap_ref_start spec s) e (60 * (24 / spec.runs_per_day)) := by
  simp only [build_reftime_list] at h
  split_ifs at h with h1 h2 h3 h4
  · exact absurd h4 (by decide)
  · cases hcs : config_specs config domain (nwm_version s) 1 with
    | error ex =>
      rw [hcs] at h
      exact absurd h (by simp)
    | ok spec =>
      rw [hcs] at h
      dsimp only at h
      split_ifs at h with h5
      · injection h with h6
        exact absurd h6.symm hR
      · injection h with h6
        exact ⟨spec, rfl, h2, by omega, by omega, h6.symm⟩

theorem build_reftime_list_idem {domain config : String} {s e a b : ℕ} {R : List ℕ}
    (h : build_reftime_list domain s e config "ascending" = .ok R)
    (hha : R.head? = some a) (hhb : R.getLast? = some b)
    (hva : nwm_version a = nwm_version s) :
    build_reftime_list domain a b config "ascending" = .ok R := by
  have hR : R ≠ [] := by
    intro hn
    subst hn
    simp at hha
  obtain ⟨spec, hcs, hhm, hsnap_le, hs_le, hReq⟩ := build_reftime_list_ok h hR
  obtain ⟨hr, hb24⟩ := config_specs_cadence hcs
  have hint_pos : 0 < 24 / spec.runs_per_day := by
    rcases hr with h' | h' | h' | h' <;> simp [h']
  have hstep_pos : 0 < 60 * (24 / spec.runs_per_day) := by omega
  have ha_eq : a = snap_ref_start spec s := by
    rw [hReq, dateRange_head? hsnap_le] at hha
    injection hha with h5
    exact h5.symm
  have hb_eq : b = snap_ref_start spec s +
      ((e - snap_ref_start spec s) / (60 * (24 / spec.runs_per_day))) *
        (60 * (24 / spec.runs_per_day)) := by
    rw [hReq, dateRange_getLast? hsnap_le] at hhb
    injection hhb with h5
    exact h5.symm
  have hab : a ≤ b := by
    rw [ha_eq, hb_eq]
    omega
  simp only [build_reftime_list]
  rw [if_neg (show ¬ b < a by omega)]
  rw [if_neg hhm]
  rw [if_neg (nwm_version_bounds a)]
  rw [hva, hcs]
  dsimp only
  rw [if_neg (by decide : ¬ (("ascending" : String) = "descending"))]
  have hsnap_a : snap_ref_start spec a = a := by
    rw [ha_eq]
    exact snap_ref_start_idem spec s hr hb24
  rw [hsnap_a]
  rw [if_neg (show ¬ b < a by omega)]
  rw [hb_eq, ha_eq, dateRange_truncate hsnap_le hstep_pos, ← hReq]

/-- C8: scheduling is idempotent under re-snapping: whenever the scheduler
reftimes_in_range returns a non-empty ascending list R for a domain,
configuration, and range, scheduling again over the range from the first to
the last element of R (same domain and configuration) returns exactly R. -/
theorem C8_schedule_idempotent (domain config : String) (s e : ℕ) (R : List ℕ) (a b : ℕ)
    (h : reftimes_in_range domain config s e (-999) = .ok (.lists R))
    (hha : R.head? = some a) (hhb : R.getLast? = some b) :
    reftimes_in_range domain config a b (-999) = .ok (.lists R) := by
  have hneg : ¬ ((-999 : ℤ) ≥ 0) := by norm_num
  have hR : R ≠ [] := by
    intro hn
    subst hn
    simp at hha
  simp only [reftimes_in_range, if_neg hneg] at h ⊢
  split_ifs at h with hv
  have hveq : nwm_version s = nwm_version e := not_not.mp hv
  cases hcs : config_specs config domain (nwm_version s) 1 with
  | error ex =>
    rw [hcs] at h
    exact absurd h (by simp)
  | ok spec0 =>
    rw [hcs] at h
    dsimp only at h
    cases hbl : build_reftime_list domain s e config "ascending" with
    | error ex =>
      rw [hbl] at h
      exact absurd h (by simp)
    | ok L =>
      rw [hbl] at h
      dsimp only at h
      split_ifs at h with hL
      · injection h with h5
        exact absurd h5 (by simp)
      · injection h with h5
        injection h5 with h6
        subst h6
        -- now: build_reftime_list domain s e config = .ok R and R nonempty
        obtain ⟨spec, hcs2, _, hsnap_le, hs_le, hReq⟩ := build_reftime_list_ok hbl hR
        have ha_eq : a = snap_ref_start spec s := by
          rw [hReq, dateRange_head? hsnap_le] at hha
          injection hha with h7
          exact h7.symm
        have hb_eq : b = snap_ref_start spec s +
            ((e - snap_ref_start spec s) / (60 * (24 / spec.runs_per_day))) *
              (60 * (24 / spec.runs_per_day)) := by
          rw [hReq, dateRange_getLast? hsnap_le] at hhb
          injection hhb with h7
          exact h7.symm
        have hs_le_a : s ≤ a := ha_eq ▸ snap_ref_start_ge spec s
        have hb_le_e : b ≤ e := by
          have := Nat.div_mul_le_self (e - snap_ref_start spec s)
            (60 * (24 / spec.runs_per_day))
          omega
        have ha_le_b : a ≤ b := by
          rw [ha_eq, hb_eq]
          omega
        have hva : nwm_version a = nwm_version s :=
          nwm_version_sandwich hs_le_a (by omega) hveq
        have hvb : nwm_version b = nwm_version s :=
          nwm_version_sandwich (by omega) hb_le_e hveq
        have hbl2 := build_reftime_list_idem hbl hha hhb hva
        rw [if_neg (show ¬ nwm_version a ≠ nwm_version b by simp [hva, hvb])]
        rw [hva, hcs]
        dsimp only
        rw [hbl2]
        dsimp only
        rw [if_neg hR]

/-- C8 witness: scheduling Conus short range over 2022-06-01T00:00Z to
2022-06-01T05:00Z returns 6 hourly reference times, and re-scheduling over
the first-to-last of that result returns the same list. -/
theorem C8_schedule_idempotent_witness :
    reftimes_in_range "conus" "short_range"
        ((dateRange (dtOf 2022 6 1 0) (dtOf 2022 6 1 5) 60).headI)
        ((dateRange (dtOf 2022 6 1 0) (dtOf 2022 6 1 5) 60).getLastD 0) (-999) =
      .ok (.lists (dateRange (dtOf 2022 6 1 0) (dtOf 2022 6 1 5) 60)) :=
  C8_schedule_idempotent "conus" "short_range" (dtOf 2022 6 1 0) (dtOf 2022 6 1 5)
    (dateRange (dtOf 2022 6 1 0) (dtOf 2022 6 1 5) 60)
    ((dateRange (dtOf 2022 6 1 0) (dtOf 2022 6 1 5) 60).headI)
    ((dateRange (dtOf 2022 6 1 0) (dtOf 2022 6 1 5) 60).getLastD 0)
    (by rfl) (by rfl) (by rfl)
